import Mathlib

/-!
Verification of the contract layer of `src/nacl/secret.py` (PyNaCl's
`SecretBox` and `Aead` classes): key/nonce size validation, nonce
generation, the combined nonce‖ciphertext wire layout, and the error
taxonomy.  The symmetric cipher itself is an external primitive provider
(libsodium, reached through `nacl.bindings`), out of scope of the source
file; it is modelled abstractly as a structure of functions, and the
contract the spec states for it (round-trip, AAD authentication) appears
as explicit hypotheses of the theorems that need it, discharged in the
witnesses by concrete toy providers.
-/

namespace PyNaCl

/-- Python `bytes` values are modelled as lists of naturals. -/
abbrev Bytes := List Nat

/-- Modelled from the spec: the size constants exported by the primitive
provider for the secret-box construct (`nacl.bindings`, not under `src/`):
key 32 bytes, nonce 24 bytes, MAC tag 16 bytes. -/
def crypto_secretbox_KEYBYTES : Nat := 32

/-- Modelled from the spec: secret-box nonce size (24 bytes). -/
def crypto_secretbox_NONCEBYTES : Nat := 24

/-- Modelled from the spec: secret-box MAC tag size (16 bytes). -/
def crypto_secretbox_MACBYTES : Nat := 16

/-- Modelled from the spec: AEAD key size (32 bytes), an independent
constant from the secret-box one even though numerically equal. -/
def crypto_aead_xchacha20poly1305_ietf_KEYBYTES : Nat := 32

/-- Modelled from the spec: AEAD nonce size (24 bytes). -/
def crypto_aead_xchacha20poly1305_ietf_NPUBBYTES : Nat := 24

/-- Modelled from the spec: AEAD MAC tag size (16 bytes). -/
def crypto_aead_xchacha20poly1305_ietf_ABYTES : Nat := 16

/-- Modelled from the spec: the error taxonomy of `nacl.exceptions`
(not under `src/`).  The source raises `exc.TypeError` where the spec says
`InvalidKeyType`, and `exc.ValueError` where the spec says
`InvalidKeySize` / `InvalidNonceSize`; a failed authenticator in the
primitive surfaces as `AuthenticationFailure`. -/
inductive NaclError where
  | invalidKeyType
  | invalidKeySize
  | invalidNonceSize
  | authenticationFailure
deriving DecidableEq

/-- Modelled from the spec: the opaque primitive provider's secret-box
interface, `encrypt(plaintext, nonce, key) -> ciphertext‖tag` and
`decrypt(ciphertext‖tag, nonce, key) -> plaintext | fail`
(`nacl.bindings.crypto_secretbox` / `crypto_secretbox_open`). -/
structure SecretBoxProvider where
  crypto_secretbox : Bytes → Bytes → Bytes → Bytes
  crypto_secretbox_open : Bytes → Bytes → Bytes → Option Bytes

/-- Modelled from the spec: the opaque primitive provider's AEAD
interface, taking an extra `aad` parameter
(`nacl.bindings.crypto_aead_xchacha20poly1305_ietf_encrypt` /
`..._decrypt`; argument order `plaintext/ciphertext, aad, nonce, key`
as at the call sites in the source). -/
structure AeadProvider where
  crypto_aead_xchacha20poly1305_ietf_encrypt :
    Bytes → Bytes → Bytes → Bytes → Bytes
  crypto_aead_xchacha20poly1305_ietf_decrypt :
    Bytes → Bytes → Bytes → Bytes → Option Bytes

/-- Modelled from the spec: `nacl.utils.EncryptedMessage` (not under
`src/`), a composite result exposing three views — nonce, ciphertext and
the combined form — each already encoded by the caller-selected encoder. -/
structure EncryptedMessage where
  nonce : Bytes
  ciphertext : Bytes
  combined : Bytes
deriving DecidableEq

/-- Modelled from the spec: `EncryptedMessage._from_parts(nonce,
ciphertext, combined)` packages the three already-encoded views. -/
def EncryptedMessage.fromParts (n c comb : Bytes) : EncryptedMessage :=
  ⟨n, c, comb⟩

/-- A decoded Python value as seen by the constructors: either a `bytes`
buffer or some non-bytes object (the `isinstance(key, bytes)` check). -/
inductive PyVal where
  | bytes (b : Bytes)
  | nonBytes (tag : Nat)

/-- An encoder strategy as consumed by the source: `encode` and `decode`
over byte buffers.  The default `RawEncoder` is the identity. -/
structure Encoder where
  encode : Bytes → Bytes
  decode : Bytes → Bytes

/-- `nacl.encoding.RawEncoder`: the identity encoder. -/
def RawEncoder : Encoder := ⟨id, id⟩

/-- `class SecretBox` — its sole instance state is `self._key`
(`secret.py` line 67). -/
structure SecretBox where
  _key : Bytes
deriving DecidableEq

def SecretBox.KEY_SIZE : Nat := crypto_secretbox_KEYBYTES

def SecretBox.NONCE_SIZE : Nat := crypto_secretbox_NONCEBYTES

def SecretBox.MACBYTES : Nat := crypto_secretbox_MACBYTES

/-- `SecretBox.__init__` (`secret.py` lines 57-67): decode the key, fail
with the key-type error if it is not bytes, with the key-size error if its
length differs from `KEY_SIZE`, else store the raw key bytes. -/
def SecretBox.init (key0 : PyVal) (encoder : PyVal → PyVal) :
    Except NaclError SecretBox :=
  match encoder key0 with
  | .nonBytes _ => .error .invalidKeyType
  | .bytes key =>
    if key.length ≠ SecretBox.KEY_SIZE then .error .invalidKeySize
    else .ok ⟨key⟩

/-- `SecretBox.__bytes__` (`secret.py` lines 69-70). -/
def SecretBox.toBytes (self : SecretBox) : Bytes := self._key

/-- `SecretBox.encrypt` (`secret.py` lines 72-108).  `random` stands for
the secure random source consumed when the nonce is omitted. -/
def SecretBox.encrypt (prov : SecretBoxProvider) (self : SecretBox)
    (plaintext : Bytes) (nonce? : Option Bytes) (random : Nat → Bytes)
    (encoder : Encoder) : Except NaclError EncryptedMessage :=
  let nonce := match nonce? with
    | none => random SecretBox.NONCE_SIZE
    | some n => n
  if nonce.length ≠ SecretBox.NONCE_SIZE then .error .invalidNonceSize
  else
    let ciphertext := prov.crypto_secretbox plaintext nonce self._key
    .ok (EncryptedMessage.fromParts
      (encoder.encode nonce)
      (encoder.encode ciphertext)
      (encoder.encode (nonce ++ ciphertext)))

/-- `SecretBox.decrypt` (`secret.py` lines 110-139): decode the
ciphertext; when the nonce is omitted split off the first `NONCE_SIZE`
bytes; validate the nonce length; invoke the primitive, mapping its
failure to the authentication error. -/
def SecretBox.decrypt (prov : SecretBoxProvider) (self : SecretBox)
    (ciphertext0 : Bytes) (nonce? : Option Bytes) (encoder : Encoder) :
    Except NaclError Bytes :=
  let decoded := encoder.decode ciphertext0
  let nonce := match nonce? with
    | none => decoded.take SecretBox.NONCE_SIZE
    | some n => n
  let ciphertext := match nonce? with
    | none => decoded.drop SecretBox.NONCE_SIZE
    | some _ => decoded
  if nonce.length ≠ SecretBox.NONCE_SIZE then .error .invalidNonceSize
  else
    match prov.crypto_secretbox_open ciphertext nonce self._key with
    | none => .error .authenticationFailure
    | some plaintext => .ok plaintext

/-- `class Aead` — its sole instance state is `self._key`
(`secret.py` line 196). -/
structure Aead where
  _key : Bytes
deriving DecidableEq

def Aead.KEY_SIZE : Nat := crypto_aead_xchacha20poly1305_ietf_KEYBYTES

def Aead.NONCE_SIZE : Nat := crypto_aead_xchacha20poly1305_ietf_NPUBBYTES

def Aead.MACBYTES : Nat := crypto_aead_xchacha20poly1305_ietf_ABYTES

/-- `Aead.__init__` (`secret.py` lines 186-196), identical in shape to
`SecretBox.__init__`. -/
def Aead.init (key0 : PyVal) (encoder : PyVal → PyVal) :
    Except NaclError Aead :=
  match encoder key0 with
  | .nonBytes _ => .error .invalidKeyType
  | .bytes key =>
    if key.length ≠ Aead.KEY_SIZE then .error .invalidKeySize
    else .ok ⟨key⟩

/-- `Aead.__bytes__` (`secret.py` lines 198-199). -/
def Aead.toBytes (self : Aead) : Bytes := self._key

/-- `Aead.encrypt` (`secret.py` lines 201-246): as `SecretBox.encrypt`
with the `aad` buffer threaded through to the primitive. -/
def Aead.encrypt (prov : AeadProvider) (self : Aead)
    (plaintext : Bytes) (aad : Bytes) (nonce? : Option Bytes)
    (random : Nat → Bytes) (encoder : Encoder) :
    Except NaclError EncryptedMessage :=
  let nonce := match nonce? with
    | none => random Aead.NONCE_SIZE
    | some n => n
  if nonce.length ≠ Aead.NONCE_SIZE then .error .invalidNonceSize
  else
    let ciphertext :=
      prov.crypto_aead_xchacha20poly1305_ietf_encrypt
        plaintext aad nonce self._key
    .ok (EncryptedMessage.fromParts
      (encoder.encode nonce)
      (encoder.encode ciphertext)
      (encoder.encode (nonce ++ ciphertext)))

/-- `Aead.decrypt` (`secret.py` lines 248-279): as `SecretBox.decrypt`
with the `aad` buffer threaded through to the primitive. -/
def Aead.decrypt (prov : AeadProvider) (self : Aead)
    (ciphertext0 : Bytes) (aad : Bytes) (nonce? : Option Bytes)
    (encoder : Encoder) : Except NaclError Bytes :=
  let decoded := encoder.decode ciphertext0
  let nonce := match nonce? with
    | none => decoded.take Aead.NONCE_SIZE
    | some n => n
  let ciphertext := match nonce? with
    | none => decoded.drop Aead.NONCE_SIZE
    | some _ => decoded
  if nonce.length ≠ Aead.NONCE_SIZE then .error .invalidNonceSize
  else
    match prov.crypto_aead_xchacha20poly1305_ietf_decrypt
        ciphertext aad nonce self._key with
    | none => .error .authenticationFailure
    | some plaintext => .ok plaintext

/-! ### Op-sequence machinery for the frame property

The Python methods assign no attribute of `self`, so the explicit
state-passing form of each method returns the receiver unchanged; `run`
threads a box through an arbitrary sequence of calls. -/

/-- One call made against a `SecretBox` instance. -/
inductive BoxOp where
  | encryptOp (plaintext : Bytes) (nonce? : Option Bytes)
      (random : Nat → Bytes) (encoder : Encoder)
  | decryptOp (ciphertext0 : Bytes) (nonce? : Option Bytes)
      (encoder : Encoder)

/-- One call made against an `Aead` instance. -/
inductive AeadOp where
  | encryptOp (plaintext aad : Bytes) (nonce? : Option Bytes)
      (random : Nat → Bytes) (encoder : Encoder)
  | decryptOp (ciphertext0 aad : Bytes) (nonce? : Option Bytes)
      (encoder : Encoder)

/-- State-transformer form of one `SecretBox` method call: the method
bodies of `encrypt`/`decrypt` read `self._key` and never write any
attribute, so the outgoing state is the incoming receiver. -/
def SecretBox.step (prov : SecretBoxProvider) (self : SecretBox) :
    BoxOp → SecretBox ×
      (Except NaclError EncryptedMessage ⊕ Except NaclError Bytes)
  | .encryptOp p nonce? r e =>
    (self, .inl (SecretBox.encrypt prov self p nonce? r e))
  | .decryptOp c nonce? e =>
    (self, .inr (SecretBox.decrypt prov self c nonce? e))

/-- The instance state after a sequence of `SecretBox` calls. -/
def SecretBox.run (prov : SecretBoxProvider) (self : SecretBox)
    (ops : List BoxOp) : SecretBox :=
  ops.foldl (fun b op => (SecretBox.step prov b op).1) self

/-- State-transformer form of one `Aead` method call. -/
def Aead.step (prov : AeadProvider) (self : Aead) :
    AeadOp → Aead ×
      (Except NaclError EncryptedMessage ⊕ Except NaclError Bytes)
  | .encryptOp p aad nonce? r e =>
    (self, .inl (Aead.encrypt prov self p aad nonce? r e))
  | .decryptOp c aad nonce? e =>
    (self, .inr (Aead.decrypt prov self c aad nonce? e))

/-- The instance state after a sequence of `Aead` calls. -/
def Aead.run (prov : AeadProvider) (self : Aead) (ops : List AeadOp) :
    Aead :=
  ops.foldl (fun b op => (Aead.step prov b op).1) self

/-! ### Concrete toy providers

These instantiate the abstract primitive-provider interfaces in the
witnesses, showing the provider-contract hypotheses of the theorems
below are satisfiable. -/

/-- A toy secret-box provider: the ciphertext is the plaintext itself. -/
def idSecretBoxProvider : SecretBoxProvider where
  crypto_secretbox := fun p _ _ => p
  crypto_secretbox_open := fun c _ _ => some c

/-- A toy AEAD provider that embeds a length-prefixed copy of the aad in
the ciphertext and checks it on decryption, so that any aad mismatch
(including a length difference) is detected. -/
def taggingAeadProvider : AeadProvider where
  crypto_aead_xchacha20poly1305_ietf_encrypt := fun p aad _ _ =>
    aad.length :: (aad ++ p)
  crypto_aead_xchacha20poly1305_ietf_decrypt := fun c aad _ _ =>
    if c.take (aad.length + 1) = aad.length :: aad then
      some (c.drop (aad.length + 1))
    else none

/-! ### Concrete inputs for the witnesses -/

/-- A 32-byte all-zero key. -/
def key0 : Bytes := List.replicate 32 0

/-- A 24-byte all-zero nonce. -/
def nonce0 : Bytes := List.replicate 24 0

/-- The bytes of `"test message"`. -/
def p0 : Bytes := [116, 101, 115, 116, 32, 109, 101, 115, 115, 97, 103, 101]

/-- The bytes of `"header"`. -/
def aad0 : Bytes := [104, 101, 97, 100, 101, 114]

/-- A deterministic stand-in for the random source: `m` zero bytes. -/
def zeros (m : Nat) : Bytes := List.replicate m 0

/-! ### Reduction lemmas for the facade functions -/

theorem SecretBox.encrypt_explicit (prov : SecretBoxProvider) (b : SecretBox)
    (p n : Bytes) (r : Nat → Bytes) (e : Encoder)
    (hn : n.length = SecretBox.NONCE_SIZE) :
    SecretBox.encrypt prov b p (some n) r e =
      .ok ⟨e.encode n, e.encode (prov.crypto_secretbox p n b._key),
           e.encode (n ++ prov.crypto_secretbox p n b._key)⟩ := by
  simp [SecretBox.encrypt, EncryptedMessage.fromParts, hn]

theorem SecretBox.decrypt_explicit (prov : SecretBoxProvider) (b : SecretBox)
    (c n : Bytes) (e : Encoder) (hn : n.length = SecretBox.NONCE_SIZE) :
    SecretBox.decrypt prov b c (some n) e =
      (match prov.crypto_secretbox_open (e.decode c) n b._key with
       | none => .error .authenticationFailure
       | some p => .ok p) := by
  simp [SecretBox.decrypt, hn]

theorem SecretBox.encrypt_ok_inv (prov : SecretBoxProvider) (b : SecretBox)
    (p : Bytes) (nonce? : Option Bytes) (r : Nat → Bytes) (e : Encoder)
    (msg : EncryptedMessage)
    (h : SecretBox.encrypt prov b p nonce? r e = .ok msg) :
    ∃ n, n.length = SecretBox.NONCE_SIZE ∧
      (nonce? = some n ∨ (nonce? = none ∧ n = r SecretBox.NONCE_SIZE)) ∧
      msg = ⟨e.encode n, e.encode (prov.crypto_secretbox p n b._key),
             e.encode (n ++ prov.crypto_secretbox p n b._key)⟩ := by
  unfold SecretBox.encrypt at h
  cases nonce? with
  | none =>
    by_cases hn : (r SecretBox.NONCE_SIZE).length = SecretBox.NONCE_SIZE
    · refine ⟨r SecretBox.NONCE_SIZE, hn, .inr ⟨rfl, rfl⟩, ?_⟩
      simp [hn, EncryptedMessage.fromParts] at h
      exact h.symm
    · simp [hn] at h
  | some n =>
    by_cases hn : n.length = SecretBox.NONCE_SIZE
    · refine ⟨n, hn, .inl rfl, ?_⟩
      simp [hn, EncryptedMessage.fromParts] at h
      exact h.symm
    · simp [hn] at h

theorem Aead.aead_encrypt_explicit (prov : AeadProvider) (b : Aead)
    (p aad n : Bytes) (r : Nat → Bytes) (e : Encoder)
    (hn : n.length = Aead.NONCE_SIZE) :
    Aead.encrypt prov b p aad (some n) r e =
      .ok ⟨e.encode n,
           e.encode (prov.crypto_aead_xchacha20poly1305_ietf_encrypt
             p aad n b._key),
           e.encode (n ++ prov.crypto_aead_xchacha20poly1305_ietf_encrypt
             p aad n b._key)⟩ := by
  simp [Aead.encrypt, EncryptedMessage.fromParts, hn]

theorem Aead.aead_decrypt_explicit (prov : AeadProvider) (b : Aead)
    (c aad n : Bytes) (e : Encoder) (hn : n.length = Aead.NONCE_SIZE) :
    Aead.decrypt prov b c aad (some n) e =
      (match prov.crypto_aead_xchacha20poly1305_ietf_decrypt
          (e.decode c) aad n b._key with
       | none => .error .authenticationFailure
       | some p => .ok p) := by
  simp [Aead.decrypt, hn]

theorem Aead.aead_encrypt_ok_inv (prov : AeadProvider) (b : Aead)
    (p aad : Bytes) (nonce? : Option Bytes) (r : Nat → Bytes) (e : Encoder)
    (msg : EncryptedMessage)
    (h : Aead.encrypt prov b p aad nonce? r e = .ok msg) :
    ∃ n, n.length = Aead.NONCE_SIZE ∧
      (nonce? = some n ∨ (nonce? = none ∧ n = r Aead.NONCE_SIZE)) ∧
      msg = ⟨e.encode n,
             e.encode (prov.crypto_aead_xchacha20poly1305_ietf_encrypt
               p aad n b._key),
             e.encode (n ++ prov.crypto_aead_xchacha20poly1305_ietf_encrypt
               p aad n b._key)⟩ := by
  unfold Aead.encrypt at h
  cases nonce? with
  | none =>
    by_cases hn : (r Aead.NONCE_SIZE).length = Aead.NONCE_SIZE
    · refine ⟨r Aead.NONCE_SIZE, hn, .inr ⟨rfl, rfl⟩, ?_⟩
      simp [hn, EncryptedMessage.fromParts] at h
      exact h.symm
    · simp [hn] at h
  | some n =>
    by_cases hn : n.length = Aead.NONCE_SIZE
    · refine ⟨n, hn, .inl rfl, ?_⟩
      simp [hn, EncryptedMessage.fromParts] at h
      exact h.symm
    · simp [hn] at h

theorem idSecretBoxProvider_roundtrip (p n k : Bytes) :
    idSecretBoxProvider.crypto_secretbox_open
      (idSecretBoxProvider.crypto_secretbox p n k) n k = some p := rfl

theorem taggingAeadProvider_roundtrip (p aad n k : Bytes) :
    taggingAeadProvider.crypto_aead_xchacha20poly1305_ietf_decrypt
      (taggingAeadProvider.crypto_aead_xchacha20poly1305_ietf_encrypt
        p aad n k) aad n k = some p := by
  show (if (aad.length :: (aad ++ p)).take (aad.length + 1) =
          aad.length :: aad then
        some ((aad.length :: (aad ++ p)).drop (aad.length + 1))
      else none) = some p
  rw [List.take_succ_cons, List.drop_succ_cons, List.take_left,
    List.drop_left, if_pos rfl]

theorem taggingAeadProvider_aad_mismatch (p a a' n k : Bytes)
    (hne : a ≠ a') :
    taggingAeadProvider.crypto_aead_xchacha20poly1305_ietf_decrypt
      (taggingAeadProvider.crypto_aead_xchacha20poly1305_ietf_encrypt
        p a n k) a' n k = none := by
  show (if (a.length :: (a ++ p)).take (a'.length + 1) =
          a'.length :: a' then _ else none) = none
  rw [if_neg]
  intro h
  rw [List.take_succ_cons] at h
  have h1 : a.length = a'.length := (List.cons_eq_cons.mp h).1
  have h2 : (a ++ p).take a'.length = a' := (List.cons_eq_cons.mp h).2
  rw [← h1, List.take_left] at h2
  exact hne h2

/-! ### Claims -/

/-- Claim C1: for every valid key (length `KEY_SIZE`), every nonce of
length `NONCE_SIZE` and every plaintext, decrypting the ciphertext
produced by `encrypt` with the same nonce and key returns exactly the
plaintext; for `Aead` the same holds for every aad supplied identically
to both calls.  The primitive provider's round-trip contract, which the
spec states for the out-of-scope provider, is a hypothesis. -/
theorem roundtrip_explicit_nonce
    (sprov : SecretBoxProvider) (aprov : AeadProvider)
    (hs : ∀ p n k, sprov.crypto_secretbox_open
      (sprov.crypto_secretbox p n k) n k = some p)
    (ha : ∀ p aad n k, aprov.crypto_aead_xchacha20poly1305_ietf_decrypt
      (aprov.crypto_aead_xchacha20poly1305_ietf_encrypt p aad n k)
      aad n k = some p)
    (k n p aad : Bytes) (r : Nat → Bytes)
    (_hk : k.length = SecretBox.KEY_SIZE)
    (hn : n.length = SecretBox.NONCE_SIZE) :
    (∀ msg, SecretBox.encrypt sprov ⟨k⟩ p (some n) r RawEncoder = .ok msg →
      SecretBox.decrypt sprov ⟨k⟩ msg.ciphertext (some n) RawEncoder =
        .ok p) ∧
    (∀ msg, Aead.encrypt aprov ⟨k⟩ p aad (some n) r RawEncoder = .ok msg →
      Aead.decrypt aprov ⟨k⟩ msg.ciphertext aad (some n) RawEncoder =
        .ok p) := by
  constructor
  · intro msg hmsg
    rw [SecretBox.encrypt_explicit _ _ _ _ _ _ hn] at hmsg
    cases hmsg
    rw [SecretBox.decrypt_explicit _ _ _ _ _ hn]
    simp [RawEncoder, hs]
  · intro msg hmsg
    rw [Aead.aead_encrypt_explicit _ _ _ _ _ _ _ hn] at hmsg
    cases hmsg
    rw [Aead.aead_decrypt_explicit _ _ _ _ _ _ hn]
    simp [RawEncoder, ha]

/-- Witness for C1 at concrete inputs, with the toy providers showing the
provider-contract hypotheses are satisfiable. -/
theorem roundtrip_explicit_nonce_witness :
    SecretBox.decrypt idSecretBoxProvider ⟨key0⟩ p0 (some nonce0)
      RawEncoder = .ok p0 ∧
    Aead.decrypt taggingAeadProvider ⟨key0⟩ (aad0.length :: (aad0 ++ p0))
      aad0 (some nonce0) RawEncoder = .ok p0 := by
  constructor
  · exact (roundtrip_explicit_nonce idSecretBoxProvider taggingAeadProvider
      idSecretBoxProvider_roundtrip taggingAeadProvider_roundtrip
      key0 nonce0 p0 aad0 zeros (by decide) (by decide)).1
      ⟨nonce0, p0, nonce0 ++ p0⟩ rfl
  · exact (roundtrip_explicit_nonce idSecretBoxProvider taggingAeadProvider
      idSecretBoxProvider_roundtrip taggingAeadProvider_roundtrip
      key0 nonce0 p0 aad0 zeros (by decide) (by decide)).2
      ⟨nonce0, aad0.length :: (aad0 ++ p0),
       nonce0 ++ (aad0.length :: (aad0 ++ p0))⟩ rfl

/-- Claim C2: every successful `encrypt` (explicit or generated nonce,
any encoder) returns an `EncryptedMessage` whose combined field is the
encoding of the raw nonce bytes immediately followed by the raw
ciphertext bytes, with no separator; with the raw encoder this is
literally `combined = nonce ++ ciphertext`. -/
theorem combined_is_nonce_append_ciphertext
    (sprov : SecretBoxProvider) (aprov : AeadProvider)
    (b : SecretBox) (ab : Aead) (p aad : Bytes) (nonce? : Option Bytes)
    (r : Nat → Bytes) (e : Encoder) :
    (∀ msg, SecretBox.encrypt sprov b p nonce? r e = .ok msg →
      ∃ nb cb, msg.nonce = e.encode nb ∧ msg.ciphertext = e.encode cb ∧
        msg.combined = e.encode (nb ++ cb)) ∧
    (∀ msg, SecretBox.encrypt sprov b p nonce? r RawEncoder = .ok msg →
      msg.combined = msg.nonce ++ msg.ciphertext) ∧
    (∀ msg, Aead.encrypt aprov ab p aad nonce? r e = .ok msg →
      ∃ nb cb, msg.nonce = e.encode nb ∧ msg.ciphertext = e.encode cb ∧
        msg.combined = e.encode (nb ++ cb)) ∧
    (∀ msg, Aead.encrypt aprov ab p aad nonce? r RawEncoder = .ok msg →
      msg.combined = msg.nonce ++ msg.ciphertext) := by
  refine ⟨?_, ?_, ?_, ?_⟩ <;> intro msg hmsg
  · obtain ⟨n, hn, -, hm⟩ := SecretBox.encrypt_ok_inv _ _ _ _ _ _ _ hmsg
    exact ⟨n, _, by rw [hm], by rw [hm], by rw [hm]⟩
  · obtain ⟨n, hn, -, hm⟩ := SecretBox.encrypt_ok_inv _ _ _ _ _ _ _ hmsg
    rw [hm]
    rfl
  · obtain ⟨n, hn, -, hm⟩ := Aead.aead_encrypt_ok_inv _ _ _ _ _ _ _ _ hmsg
    exact ⟨n, _, by rw [hm], by rw [hm], by rw [hm]⟩
  · obtain ⟨n, hn, -, hm⟩ := Aead.aead_encrypt_ok_inv _ _ _ _ _ _ _ _ hmsg
    rw [hm]
    rfl

/-- Witness for C2 at concrete inputs: the message produced by the toy
secret-box provider under the raw encoder satisfies
`combined = nonce ++ ciphertext`. -/
theorem combined_is_nonce_append_ciphertext_witness :
    (⟨nonce0, p0, nonce0 ++ p0⟩ : EncryptedMessage).combined =
      (⟨nonce0, p0, nonce0 ++ p0⟩ : EncryptedMessage).nonce ++
      (⟨nonce0, p0, nonce0 ++ p0⟩ : EncryptedMessage).ciphertext :=
  (combined_is_nonce_append_ciphertext idSecretBoxProvider
    taggingAeadProvider ⟨key0⟩ ⟨key0⟩ p0 aad0 (some nonce0) zeros
    RawEncoder).2.1 ⟨nonce0, p0, nonce0 ++ p0⟩ rfl

/-- Claim C3: decrypting the combined form of a successful encryption
with the nonce argument omitted recovers exactly the plaintext: `decrypt`
splits off the first `NONCE_SIZE` bytes as the nonce and treats the
remainder as the ciphertext.  The provider round-trip contract is a
hypothesis as in C1. -/
theorem decrypt_combined_recovers_plaintext
    (sprov : SecretBoxProvider) (aprov : AeadProvider)
    (hs : ∀ p n k, sprov.crypto_secretbox_open
      (sprov.crypto_secretbox p n k) n k = some p)
    (ha : ∀ p aad n k, aprov.crypto_aead_xchacha20poly1305_ietf_decrypt
      (aprov.crypto_aead_xchacha20poly1305_ietf_encrypt p aad n k)
      aad n k = some p)
    (k n p aad : Bytes) (r : Nat → Bytes)
    (_hk : k.length = SecretBox.KEY_SIZE)
    (hn : n.length = SecretBox.NONCE_SIZE) :
    (∀ msg, SecretBox.encrypt sprov ⟨k⟩ p (some n) r RawEncoder = .ok msg →
      SecretBox.decrypt sprov ⟨k⟩ msg.combined none RawEncoder = .ok p) ∧
    (∀ msg, Aead.encrypt aprov ⟨k⟩ p aad (some n) r RawEncoder = .ok msg →
      Aead.decrypt aprov ⟨k⟩ msg.combined aad none RawEncoder = .ok p) := by
  constructor
  · intro msg hmsg
    rw [SecretBox.encrypt_explicit _ _ _ _ _ _ hn] at hmsg
    cases hmsg
    unfold SecretBox.decrypt
    simp only [RawEncoder, id]
    rw [← hn, List.take_left, List.drop_left]
    simp [hs]
  · intro msg hmsg
    rw [Aead.aead_encrypt_explicit _ _ _ _ _ _ _ hn] at hmsg
    cases hmsg
    unfold Aead.decrypt
    simp only [RawEncoder, id]
    have hn' : n.length = Aead.NONCE_SIZE := hn
    rw [← hn', List.take_left, List.drop_left]
    simp [ha]

/-- Witness for C3 at concrete inputs with the toy providers. -/
theorem decrypt_combined_recovers_plaintext_witness :
    SecretBox.decrypt idSecretBoxProvider ⟨key0⟩ (nonce0 ++ p0) none
      RawEncoder = .ok p0 ∧
    Aead.decrypt taggingAeadProvider ⟨key0⟩
      (nonce0 ++ (aad0.length :: (aad0 ++ p0))) aad0 none RawEncoder =
      .ok p0 := by
  constructor
  · exact (decrypt_combined_recovers_plaintext idSecretBoxProvider
      taggingAeadProvider idSecretBoxProvider_roundtrip
      taggingAeadProvider_roundtrip key0 nonce0 p0 aad0 zeros
      (by decide) (by decide)).1 ⟨nonce0, p0, nonce0 ++ p0⟩ rfl
  · exact (decrypt_combined_recovers_plaintext idSecretBoxProvider
      taggingAeadProvider idSecretBoxProvider_roundtrip
      taggingAeadProvider_roundtrip key0 nonce0 p0 aad0 zeros
      (by decide) (by decide)).2
      ⟨nonce0, aad0.length :: (aad0 ++ p0),
       nonce0 ++ (aad0.length :: (aad0 ++ p0))⟩ rfl

/-- Claim C4: with the same key and nonce, decrypting an `Aead`
ciphertext produced under aad `a1` with a different aad `a2` (any
difference, including length) fails with the authentication error, while
decrypting with the matching aad succeeds.  The provider's authentication
contract (any aad mismatch is rejected), stated by the spec for the
out-of-scope primitive, is a hypothesis. -/
theorem aead_aad_mismatch_auth_failure
    (aprov : AeadProvider)
    (hrt : ∀ p aad n k, aprov.crypto_aead_xchacha20poly1305_ietf_decrypt
      (aprov.crypto_aead_xchacha20poly1305_ietf_encrypt p aad n k)
      aad n k = some p)
    (hmm : ∀ p a a' n k, a ≠ a' →
      aprov.crypto_aead_xchacha20poly1305_ietf_decrypt
        (aprov.crypto_aead_xchacha20poly1305_ietf_encrypt p a n k)
        a' n k = none)
    (k n p a1 a2 : Bytes) (r : Nat → Bytes)
    (hn : n.length = Aead.NONCE_SIZE) (hne : a1 ≠ a2) :
    ∀ msg, Aead.encrypt aprov ⟨k⟩ p a1 (some n) r RawEncoder = .ok msg →
      Aead.decrypt aprov ⟨k⟩ msg.ciphertext a2 (some n) RawEncoder =
        .error .authenticationFailure ∧
      Aead.decrypt aprov ⟨k⟩ msg.ciphertext a1 (some n) RawEncoder =
        .ok p := by
  intro msg hmsg
  rw [Aead.aead_encrypt_explicit _ _ _ _ _ _ _ hn] at hmsg
  cases hmsg
  constructor
  · rw [Aead.aead_decrypt_explicit _ _ _ _ _ _ hn]
    simp [RawEncoder, hmm p a1 a2 n k hne]
  · rw [Aead.aead_decrypt_explicit _ _ _ _ _ _ hn]
    simp [RawEncoder, hrt]

/-- Witness for C4: the spec's concrete scenario with aad `"header"` on
encryption; decrypting with empty aad fails, with `"header"` succeeds. -/
theorem aead_aad_mismatch_auth_failure_witness :
    Aead.decrypt taggingAeadProvider ⟨key0⟩ (aad0.length :: (aad0 ++ p0))
      [] (some nonce0) RawEncoder = .error .authenticationFailure ∧
    Aead.decrypt taggingAeadProvider ⟨key0⟩ (aad0.length :: (aad0 ++ p0))
      aad0 (some nonce0) RawEncoder = .ok p0 :=
  aead_aad_mismatch_auth_failure taggingAeadProvider
    taggingAeadProvider_roundtrip
    (fun p a a' n k h => taggingAeadProvider_aad_mismatch p a a' n k h)
    key0 nonce0 p0 aad0 [] zeros (by decide) (by decide)
    ⟨nonce0, aad0.length :: (aad0 ++ p0),
     nonce0 ++ (aad0.length :: (aad0 ++ p0))⟩ rfl

/-- Claim C5: for every input key value and encoder, construction fails
with the key-type error when the decoded key is not a byte buffer, fails
with the key-size error when it is a byte buffer of length ≠ 32, and
otherwise succeeds storing the raw key bytes as the instance's sole
state (exposed unchanged by `__bytes__`). -/
theorem init_key_validation (kv : PyVal) (e : PyVal → PyVal) :
    ((∃ t, e kv = .nonBytes t) →
      SecretBox.init kv e = .error .invalidKeyType ∧
      Aead.init kv e = .error .invalidKeyType) ∧
    (∀ k, e kv = .bytes k → k.length ≠ 32 →
      SecretBox.init kv e = .error .invalidKeySize ∧
      Aead.init kv e = .error .invalidKeySize) ∧
    (∀ k, e kv = .bytes k → k.length = 32 →
      SecretBox.init kv e = .ok ⟨k⟩ ∧ Aead.init kv e = .ok ⟨k⟩ ∧
      SecretBox.toBytes ⟨k⟩ = k ∧ Aead.toBytes ⟨k⟩ = k) := by
  refine ⟨?_, ?_, ?_⟩
  · rintro ⟨t, ht⟩
    constructor <;> simp [SecretBox.init, Aead.init, ht]
  · intro k hk hlen
    have hs : k.length ≠ SecretBox.KEY_SIZE := hlen
    have ha : k.length ≠ Aead.KEY_SIZE := hlen
    constructor <;> simp [SecretBox.init, Aead.init, hk, hs, ha]
  · intro k hk hlen
    have hs : k.length = SecretBox.KEY_SIZE := hlen
    have ha : k.length = Aead.KEY_SIZE := hlen
    refine ⟨?_, ?_, rfl, rfl⟩
    · simp [SecretBox.init, hk, hs]
    · simp [Aead.init, hk, ha]

/-- Witness for C5: a non-bytes value, a 1-byte key and the 32-byte zero
key, through the identity encoder. -/
theorem init_key_validation_witness :
    SecretBox.init (.nonBytes 0) id = .error .invalidKeyType ∧
    Aead.init (.bytes [0]) id = .error .invalidKeySize ∧
    SecretBox.init (.bytes key0) id = .ok ⟨key0⟩ ∧
    Aead.init (.bytes key0) id = .ok ⟨key0⟩ :=
  ⟨((init_key_validation (.nonBytes 0) id).1 ⟨0, rfl⟩).1,
   ((init_key_validation (.bytes [0]) id).2.1 [0] rfl (by decide)).2,
   ((init_key_validation (.bytes key0) id).2.2 key0 rfl (by decide)).1,
   ((init_key_validation (.bytes key0) id).2.2 key0 rfl (by decide)).2.1⟩

/-- Claim C6: an explicitly supplied nonce of length ≠ `NONCE_SIZE` makes
encrypt and decrypt (both classes) fail with the nonce-size error — for
every provider, so before the primitive is invoked — and a nonce of
exactly `NONCE_SIZE` bytes passes the check (encrypt succeeds; decrypt
never yields the nonce-size error). -/
theorem nonce_size_validation (b : SecretBox) (ab : Aead)
    (p aad c : Bytes) (r : Nat → Bytes) (e : Encoder) (n : Bytes) :
    (n.length ≠ SecretBox.NONCE_SIZE →
      (∀ sprov, SecretBox.encrypt sprov b p (some n) r e =
        .error .invalidNonceSize) ∧
      (∀ sprov, SecretBox.decrypt sprov b c (some n) e =
        .error .invalidNonceSize) ∧
      (∀ aprov, Aead.encrypt aprov ab p aad (some n) r e =
        .error .invalidNonceSize) ∧
      (∀ aprov, Aead.decrypt aprov ab c aad (some n) e =
        .error .invalidNonceSize)) ∧
    (n.length = SecretBox.NONCE_SIZE →
      (∀ sprov, ∃ msg, SecretBox.encrypt sprov b p (some n) r e =
        .ok msg) ∧
      (∀ sprov, SecretBox.decrypt sprov b c (some n) e ≠
        .error .invalidNonceSize) ∧
      (∀ aprov, ∃ msg, Aead.encrypt aprov ab p aad (some n) r e =
        .ok msg) ∧
      (∀ aprov, Aead.decrypt aprov ab c aad (some n) e ≠
        .error .invalidNonceSize)) := by
  constructor
  · intro h
    have h' : n.length ≠ Aead.NONCE_SIZE := h
    refine ⟨?_, ?_, ?_, ?_⟩ <;> intro prov <;>
      simp [SecretBox.encrypt, SecretBox.decrypt, Aead.encrypt,
        Aead.decrypt, h, h']
  · intro h
    have h' : n.length = Aead.NONCE_SIZE := h
    refine ⟨?_, ?_, ?_, ?_⟩ <;> intro prov
    · exact ⟨_, SecretBox.encrypt_explicit _ _ _ _ _ _ h⟩
    · rw [SecretBox.decrypt_explicit _ _ _ _ _ h]
      cases prov.crypto_secretbox_open (e.decode c) n b._key <;> simp
    · exact ⟨_, Aead.aead_encrypt_explicit _ _ _ _ _ _ _ h'⟩
    · rw [Aead.aead_decrypt_explicit _ _ _ _ _ _ h']
      cases prov.crypto_aead_xchacha20poly1305_ietf_decrypt
        (e.decode c) aad n ab._key <;> simp

/-- Witness for C6: a 23-byte nonce is rejected, the 24-byte zero nonce
passes, on the toy providers at concrete inputs. -/
theorem nonce_size_validation_witness :
    SecretBox.encrypt idSecretBoxProvider ⟨key0⟩ p0
      (some (List.replicate 23 0)) zeros RawEncoder =
      .error .invalidNonceSize ∧
    Aead.decrypt taggingAeadProvider ⟨key0⟩ p0 aad0
      (some (List.replicate 23 0)) RawEncoder =
      .error .invalidNonceSize ∧
    (∃ msg, SecretBox.encrypt idSecretBoxProvider ⟨key0⟩ p0 (some nonce0)
      zeros RawEncoder = .ok msg) ∧
    SecretBox.decrypt idSecretBoxProvider ⟨key0⟩ p0 (some nonce0)
      RawEncoder ≠ .error .invalidNonceSize :=
  ⟨((nonce_size_validation ⟨key0⟩ ⟨key0⟩ p0 aad0 p0 zeros RawEncoder
      (List.replicate 23 0)).1 (by decide)).1 idSecretBoxProvider,
   ((nonce_size_validation ⟨key0⟩ ⟨key0⟩ p0 aad0 p0 zeros RawEncoder
      (List.replicate 23 0)).1 (by decide)).2.2.2 taggingAeadProvider,
   ((nonce_size_validation ⟨key0⟩ ⟨key0⟩ p0 aad0 p0 zeros RawEncoder
      nonce0).2 (by decide)).1 idSecretBoxProvider,
   ((nonce_size_validation ⟨key0⟩ ⟨key0⟩ p0 aad0 p0 zeros RawEncoder
      nonce0).2 (by decide)).2.1 idSecretBoxProvider⟩

/-- Claim C7: when the nonce argument is omitted, encrypt draws a nonce
of exactly `NONCE_SIZE` bytes from the random source (the spec's contract
`random(n)` returns `n` bytes is the hypothesis), uses that nonce for the
encryption, and exposes it in the returned `EncryptedMessage`. -/
theorem auto_nonce_generation (sprov : SecretBoxProvider)
    (aprov : AeadProvider) (b : SecretBox) (ab : Aead) (p aad : Bytes)
    (r : Nat → Bytes) (e : Encoder)
    (hr : (r SecretBox.NONCE_SIZE).length = SecretBox.NONCE_SIZE)
    (hr' : (r Aead.NONCE_SIZE).length = Aead.NONCE_SIZE) :
    SecretBox.encrypt sprov b p none r e =
      .ok ⟨e.encode (r SecretBox.NONCE_SIZE),
           e.encode (sprov.crypto_secretbox p (r SecretBox.NONCE_SIZE)
             b._key),
           e.encode (r SecretBox.NONCE_SIZE ++
             sprov.crypto_secretbox p (r SecretBox.NONCE_SIZE) b._key)⟩ ∧
    Aead.encrypt aprov ab p aad none r e =
      .ok ⟨e.encode (r Aead.NONCE_SIZE),
           e.encode (aprov.crypto_aead_xchacha20poly1305_ietf_encrypt
             p aad (r Aead.NONCE_SIZE) ab._key),
           e.encode (r Aead.NONCE_SIZE ++
             aprov.crypto_aead_xchacha20poly1305_ietf_encrypt
               p aad (r Aead.NONCE_SIZE) ab._key)⟩ := by
  constructor
  · simp [SecretBox.encrypt, EncryptedMessage.fromParts, hr]
  · simp [Aead.encrypt, EncryptedMessage.fromParts, hr']

/-- Witness for C7 with the zero-byte random source and toy providers. -/
theorem auto_nonce_generation_witness :
    SecretBox.encrypt idSecretBoxProvider ⟨key0⟩ p0 none zeros
      RawEncoder = .ok ⟨nonce0, p0, nonce0 ++ p0⟩ ∧
    Aead.encrypt taggingAeadProvider ⟨key0⟩ p0 aad0 none zeros
      RawEncoder =
      .ok ⟨nonce0, aad0.length :: (aad0 ++ p0),
           nonce0 ++ (aad0.length :: (aad0 ++ p0))⟩ :=
  auto_nonce_generation idSecretBoxProvider taggingAeadProvider
    ⟨key0⟩ ⟨key0⟩ p0 aad0 zeros RawEncoder (by decide) (by decide)

/-- Claim C8: encryption is deterministic given fixed inputs — with an
explicit nonce the result does not consult the random source at all, so
two runs (even with different random sources) produce bit-identical
`EncryptedMessage` values and hence bit-identical ciphertexts. -/
theorem encrypt_deterministic (sprov : SecretBoxProvider)
    (aprov : AeadProvider) (b : SecretBox) (ab : Aead) (p aad n : Bytes)
    (r1 r2 : Nat → Bytes) (e : Encoder) :
    SecretBox.encrypt sprov b p (some n) r1 e =
      SecretBox.encrypt sprov b p (some n) r2 e ∧
    Aead.encrypt aprov ab p aad (some n) r1 e =
      Aead.encrypt aprov ab p aad (some n) r2 e :=
  ⟨rfl, rfl⟩

/-- Claim C9: the key stored at construction is never mutated: after any
sequence of encrypt/decrypt calls the instance is unchanged, so the
stored key returned by `__bytes__` is identical before and after, and no
other instance state exists to be written. -/
theorem key_never_mutated (sprov : SecretBoxProvider)
    (aprov : AeadProvider) (b : SecretBox) (ab : Aead)
    (ops : List BoxOp) (aops : List AeadOp) :
    SecretBox.run sprov b ops = b ∧
    (SecretBox.run sprov b ops).toBytes = b.toBytes ∧
    Aead.run aprov ab aops = ab ∧
    (Aead.run aprov ab aops).toBytes = ab.toBytes := by
  have h1 : SecretBox.run sprov b ops = b := by
    induction ops with
    | nil => rfl
    | cons op ops ih =>
      have hstep : (SecretBox.step sprov b op).1 = b := by
        cases op <;> rfl
      show SecretBox.run sprov (SecretBox.step sprov b op).1 ops = b
      rw [hstep]
      exact ih
  have h2 : Aead.run aprov ab aops = ab := by
    induction aops with
    | nil => rfl
    | cons op ops ih =>
      have hstep : (Aead.step aprov ab op).1 = ab := by
        cases op <;> rfl
      show Aead.run aprov (Aead.step aprov ab op).1 ops = ab
      rw [hstep]
      exact ih
  exact ⟨h1, by rw [h1], h2, by rw [h2]⟩

/-- Claim C10: with the nonce omitted, a decoded combined input shorter
than `NONCE_SIZE` is taken whole as the nonce slice and the call fails
with the nonce-size error for every provider (so before the primitive is
invoked); a decoded input of exactly `NONCE_SIZE` bytes passes the check
and behaves exactly as an explicit-nonce decrypt of the empty ciphertext
with the whole input as nonce. -/
theorem short_combined_fails_fast (b : SecretBox) (ab : Aead)
    (aad : Bytes) (e : Encoder) (c : Bytes) :
    ((e.decode c).length < SecretBox.NONCE_SIZE →
      (e.decode c).take SecretBox.NONCE_SIZE = e.decode c ∧
      (∀ sprov, SecretBox.decrypt sprov b c none e =
        .error .invalidNonceSize) ∧
      (∀ aprov, Aead.decrypt aprov ab c aad none e =
        .error .invalidNonceSize)) ∧
    ((e.decode c).length = SecretBox.NONCE_SIZE →
      (∀ sprov, SecretBox.decrypt sprov b c none e =
        SecretBox.decrypt sprov b [] (some (e.decode c)) RawEncoder) ∧
      (∀ aprov, Aead.decrypt aprov ab c aad none e =
        Aead.decrypt aprov ab [] aad (some (e.decode c)) RawEncoder)) := by
  constructor
  · intro h
    have ht : (e.decode c).take SecretBox.NONCE_SIZE = e.decode c :=
      List.take_of_length_le (Nat.le_of_lt h)
    have hne : (e.decode c).length ≠ SecretBox.NONCE_SIZE :=
      Nat.ne_of_lt h
    have ht' : (e.decode c).take Aead.NONCE_SIZE = e.decode c := ht
    have hne' : (e.decode c).length ≠ Aead.NONCE_SIZE := hne
    refine ⟨ht, ?_, ?_⟩ <;> intro prov
    · simp [SecretBox.decrypt, ht, hne]
    · simp [Aead.decrypt, ht', hne']
  · intro h
    have ht : (e.decode c).take SecretBox.NONCE_SIZE = e.decode c := by
      rw [← h]
      exact List.take_length (e.decode c)
    have hd : (e.decode c).drop SecretBox.NONCE_SIZE = [] := by
      rw [← h]
      exact List.drop_length (e.decode c)
    have h' : (e.decode c).length = Aead.NONCE_SIZE := h
    have ht' : (e.decode c).take Aead.NONCE_SIZE = e.decode c := ht
    have hd' : (e.decode c).drop Aead.NONCE_SIZE = [] := hd
    constructor <;> intro prov
    · simp [SecretBox.decrypt, ht, hd, h, RawEncoder]
    · simp [Aead.decrypt, ht', hd', h', RawEncoder]

/-- Witness for C10: a 23-byte combined input fails fast; a 24-byte one
forwards the empty ciphertext, on the toy providers. -/
theorem short_combined_fails_fast_witness :
    SecretBox.decrypt idSecretBoxProvider ⟨key0⟩ (List.replicate 23 7)
      none RawEncoder = .error .invalidNonceSize ∧
    Aead.decrypt taggingAeadProvider ⟨key0⟩ (List.replicate 23 7) aad0
      none RawEncoder = .error .invalidNonceSize ∧
    SecretBox.decrypt idSecretBoxProvider ⟨key0⟩ (List.replicate 24 7)
      none RawEncoder =
      SecretBox.decrypt idSecretBoxProvider ⟨key0⟩ []
        (some (List.replicate 24 7)) RawEncoder :=
  ⟨((short_combined_fails_fast ⟨key0⟩ ⟨key0⟩ aad0 RawEncoder
      (List.replicate 23 7)).1 (by decide)).2.1 idSecretBoxProvider,
   ((short_combined_fails_fast ⟨key0⟩ ⟨key0⟩ aad0 RawEncoder
      (List.replicate 23 7)).1 (by decide)).2.2 taggingAeadProvider,
   ((short_combined_fails_fast ⟨key0⟩ ⟨key0⟩ aad0 RawEncoder
      (List.replicate 24 7)).2 (by decide)).1 idSecretBoxProvider⟩

end PyNaCl
